import Mathlib

/-!
# Webserver lifecycle: a shallow embedding of `lib/index.js`

The module keeps process-wide state (`app`, `router`, `serverConfig`,
`httpServer`, `httpsServer`, `sessionStore`) and exports the registration
functions `middleware`, `folder`, `route`, `rewrite` and the lifecycle
functions `setup`, `start`, `stop`.  Here the module state is an explicit
record threaded through every exported function.

Conventions of the embedding:

* a JavaScript value that may be `undefined` is an `Option`;
* functions handed in by the caller (middleware, handlers, predicates) are
  tokens (`Nat`), since the module only stores them and never calls them;
* what the platform decides (whether a socket binds, whether a file can be
  read, which events the session store emits) is an explicit argument;
* `logger.*` calls change no state and are left out.
-/

namespace Webserver

/-! ## Configuration object -/

/-- Value of `config.cors.allowOrigins`: the literal `true`, an array of
origins, a caller-supplied predicate, or not given. -/
inductive AllowOrigins where
  | all
  | list (origins : List String)
  | predicate (fn : Nat)
  | absent
  deriving DecidableEq

/-- The `config.cors` section. -/
structure Cors where
  allowOrigins : AllowOrigins := .absent
  allowMethods : Option (List String) := none
  exposeHeaders : Option (List String) := none
  allowHeaders : Option (List String) := none
  maxAge : Option Nat := none
  allowCredentials : Option Bool := none
  deriving DecidableEq

/-- The `config.cookie` section. -/
structure Cookie where
  keys : Option (List String) := none
  deriving DecidableEq

/-- The `config.session.redis` section. -/
structure Redis where
  url : Option String := none
  db : Option Nat := none
  deriving DecidableEq

/-- The `config.session` section. -/
structure Session where
  key : Option String := none
  maxAge : Option Nat := none
  redis : Option Redis := none
  deriving DecidableEq

/-- Value of a `listen` option: a boolean, a string, or not given. -/
inductive ListenVal where
  | flag (b : Bool)
  | text (s : String)
  | absent
  deriving DecidableEq

/-- The `config.http` section. -/
structure Http where
  listen : ListenVal := .absent
  deriving DecidableEq

/-- The `config.https` section. -/
structure Https where
  listen : ListenVal := .absent
  keyPath : Option String := none
  certPath : Option String := none
  caPath : Option String := none
  deriving DecidableEq

/-- The configuration object given to `setup`; `{}` is the record with every
section missing. -/
structure Config where
  cookie : Option Cookie := none
  cors : Option Cors := none
  session : Option Session := none
  http : Option Http := none
  https : Option Https := none
  deriving DecidableEq

/-! ## Middleware pipeline -/

/-- The `origin` option handed to the CORS middleware: `undefined`, the
closure built over an allow-list (represented by the list it captures), or
the caller's own predicate. -/
inductive OriginOpt where
  | unset
  | decision (allowOrigins : List String)
  | predicate (fn : Nat)
  deriving DecidableEq

/-- Options object passed to `cors(...)`. -/
structure CorsOptions where
  origin : OriginOpt
  allowMethods : Option (List String)
  exposeHeaders : Option (List String)
  allowHeaders : Option (List String)
  maxAge : Option Nat
  credentials : Option Bool
  keepHeadersOnError : Bool
  deriving DecidableEq

/-- The session store handle created by `new RedisStore(...)`. -/
structure StoreHandle where
  url : Option String
  db : Option Nat
  deriving DecidableEq

/-- Options object passed to `session(...)`. -/
structure SessionOptions where
  key : Option String
  maxAge : Option Nat
  rolling : Bool
  store : Option StoreHandle
  httpOnly : Bool
  deriving DecidableEq

/-- One element of `app.middleware`, named after the call that built it. -/
inductive Mw where
  | user (fn : Nat)
  | staticMount (path folder : String) (options : Option Nat)
  | rewriteRule (source destination : String)
  | accessLog
  | cors (opts : CorsOptions)
  | session (opts : SessionOptions)
  | passportInit
  | passportSession
  | routeDispatch
  deriving DecidableEq

/-- A route specification stored by `router.route(...)`. -/
structure Route where
  method : String
  path : String
  validate : Option Nat
  handler : Nat
  deriving DecidableEq

/-! ## Listeners -/

/-- Port argument of `listen`: the numeric default or the text taken from
the configuration string. -/
inductive PortVal where
  | num (n : Nat)
  | text (s : String)
  deriving DecidableEq

/-- A server handle together with the arguments its `listen` call was given
and whether the socket is listening. -/
structure Listener where
  host : String
  port : PortVal
  listening : Bool
  deriving DecidableEq

/-- An operation performed on an external resource. -/
inductive Effect where
  | storeQuit
  | httpClose
  | httpsClose
  deriving DecidableEq

/-! ## Module state -/

/-- The module-level variables of `lib/index.js`, plus the record of close
operations performed so far. -/
structure State where
  keys : Option (List String) := none
  middleware : List Mw := []
  routes : List Route := []
  serverConfig : Option Config := none
  httpServer : Option Listener := none
  httpsServer : Option Listener := none
  sessionStore : Option StoreHandle := none
  effects : List Effect := []
  deriving DecidableEq

/-- The state right after the module is loaded. -/
def State.init : State := {}

/-- Koa `app.use(fn)`: push onto the middleware array. -/
def State.use (st : State) (m : Mw) : State :=
  { st with middleware := st.middleware ++ [m] }

/-! ## Registration functions -/

/-- Source `exports.middleware`: `app.use(middleware)`. -/
def middleware (fn : Nat) (st : State) : State :=
  st.use (.user fn)

/-- Source `exports.folder`: `app.use(mount(path, serve(folder, options)))`. -/
def folder (path dir : String) (options : Option Nat) (st : State) : State :=
  st.use (.staticMount path dir options)

/-- Source `exports.route`: `router.route(...)`, the pipeline is untouched. -/
def route (method path : String) (validate : Option Nat) (handler : Nat)
    (st : State) : State :=
  { st with routes := st.routes ++ [⟨method, path, validate, handler⟩] }

/-- Source `exports.rewrite`: `app.use(rewrite(source, destination))`. -/
def rewrite (source destination : String) (st : State) : State :=
  st.use (.rewriteRule source destination)

/-- One call of a registration function with its arguments. -/
inductive Call where
  | middleware (fn : Nat)
  | folder (path dir : String) (options : Option Nat)
  | route (method path : String) (validate : Option Nat) (handler : Nat)
  | rewrite (source destination : String)
  deriving DecidableEq

/-- Perform one registration call. -/
def Call.run : Call → State → State
  | .middleware fn, st => Webserver.middleware fn st
  | .folder p d o, st => Webserver.folder p d o st
  | .route m p v h, st => Webserver.route m p v h st
  | .rewrite s d, st => Webserver.rewrite s d st

/-- Perform a sequence of registration calls, first to last. -/
def runCalls (cs : List Call) (st : State) : State :=
  cs.foldl (fun s c => c.run s) st

/-! ## Outcomes of the asynchronous functions -/

/-- What a lifecycle function can throw. -/
inductive Err where
  | typeError
  | storeError (e : String)
  | fileError
  | tlsError
  | listenError
  deriving DecidableEq

/-- How the promise returned by an `async` function ends: it resolves, it
rejects, or it stays pending for ever. -/
inductive Outcome where
  | resolved
  | rejected (e : Err)
  | pending
  deriving DecidableEq

/-! ## `setup`: CORS option translation -/

/-- Array `indexOf` (strict equality) searching from position `i`; `-1` when
the value is not found.  The searched value is a header, so it may be
`undefined`, which no string equals. -/
def indexOfFrom : List String → Option String → Nat → Int
  | [], _, _ => -1
  | y :: ys, x, i => if some y = x then (i : Int) else indexOfFrom ys x (i + 1)

/-- Array `indexOf`. -/
def indexOf (xs : List String) (x : Option String) : Int :=
  indexOfFrom xs x 0

/-- Body of the closure built in `setup` when `allowOrigins` is an array:
`if (allowOrigins.indexOf(origin) >= 0) return origin;` where `origin` is
`ctx.request.headers.origin`; falling through returns `undefined`. -/
def originDecision (allowOrigins : List String) (origin : Option String) :
    Option String :=
  if indexOf allowOrigins origin ≥ 0 then origin else none

/-- The `origin` option computed from `config.cors.allowOrigins`: `true`
becomes `undefined`, an array becomes the closure, anything else is kept. -/
def corsOrigin : AllowOrigins → OriginOpt
  | .all => .unset
  | .list l => .decision l
  | .predicate f => .predicate f
  | .absent => .unset

/-- The options object built for `cors(...)` in `setup`. -/
def corsOptions (c : Cors) : CorsOptions :=
  { origin := corsOrigin c.allowOrigins
    allowMethods := c.allowMethods
    exposeHeaders := c.exposeHeaders
    allowHeaders := c.allowHeaders
    maxAge := c.maxAge
    credentials := c.allowCredentials
    keepHeadersOnError := true }

/-! ## `setup`: waiting for the session store -/

/-- An event emitted by the session store. -/
inductive StoreEvent where
  | ready
  | error (e : String)
  | other (name : String)
  deriving DecidableEq

/-- State of a promise. -/
inductive Promise where
  | pending
  | fulfilled
  | rejected (e : String)
  deriving DecidableEq

/-- Calling `resolve`: only a pending promise changes. -/
def Promise.resolve : Promise → Promise
  | .pending => .fulfilled
  | p => p

/-- Calling `reject(e)`: only a pending promise changes. -/
def Promise.reject (e : String) : Promise → Promise
  | .pending => .rejected e
  | p => p

/-- The promise created in `setup` with its two `once` listeners; a `once`
listener is removed when it has been called. -/
structure StoreWait where
  promise : Promise := .pending
  onReady : Bool := true
  onError : Bool := true
  deriving DecidableEq

/-- Delivery of one store event to the listeners registered by
`sessionStore.once("ready", resolve)` and `sessionStore.once("error", reject)`. -/
def StoreWait.emit (w : StoreWait) : StoreEvent → StoreWait
  | .ready =>
    if w.onReady then { w with promise := w.promise.resolve, onReady := false } else w
  | .error e =>
    if w.onError then { w with promise := w.promise.reject e, onError := false } else w
  | .other _ => w

/-- The promise after the store has emitted `events`, first to last. -/
def awaitStore (events : List StoreEvent) : Promise :=
  (events.foldl StoreWait.emit {}).promise

/-! ## `setup` -/

/-- The options object built for `session(...)` in `setup`. -/
def sessionOptions (s : Session) (store : Option StoreHandle) : SessionOptions :=
  { key := s.key, maxAge := s.maxAge, rolling := true, store := store, httpOnly := false }

/-- Source `exports.setup` up to the point where it suspends on the store
promise (lines 97 to 139).  Returns the state reached and the error thrown,
if any; reading a property of a missing section is a `TypeError`. -/
def setupSync (config : Option Config) (st : State) : State × Option Err :=
  let serverConfig : Config := config.getD {}
  let st := { st with serverConfig := some serverConfig }
  match serverConfig.cookie with
  | none => (st, some .typeError)
  | some cookie =>
    let st := { st with keys := cookie.keys }
    let st := st.use .accessLog
    match config with
    | none => (st, some .typeError)
    | some cfg =>
      let st := match cfg.cors with
        | some c => st.use (.cors (corsOptions c))
        | none => st
      match serverConfig.session with
      | none => (st, some .typeError)
      | some s =>
        match s.redis with
        | none => (st, some .typeError)
        | some r => ({ st with sessionStore := some ⟨r.url, r.db⟩ }, none)

/-- Source `exports.setup` after the store promise has resolved (lines 141
to 151): session middleware, then the two passport middleware. -/
def setupResume (st : State) : State × Option Err :=
  match st.serverConfig with
  | none => (st, some .typeError)
  | some serverConfig =>
    match serverConfig.session with
    | none => (st, some .typeError)
    | some s =>
      let st := st.use (.session (sessionOptions s st.sessionStore))
      let st := st.use .passportInit
      let st := st.use .passportSession
      (st, none)

/-- Source `exports.setup`, with the registration calls `during` made by
the caller while `setup` is suspended on the store promise, and the events
the store emits. -/
def setupWith (config : Option Config) (events : List StoreEvent)
    (during : List Call) (st : State) : State × Outcome :=
  match setupSync config st with
  | (s1, some e) => (s1, .rejected e)
  | (s1, none) =>
    let s2 := runCalls during s1
    match awaitStore events with
    | .pending => (s2, .pending)
    | .rejected e => (s2, .rejected (.storeError e))
    | .fulfilled =>
      match setupResume s2 with
      | (s3, some e) => (s3, .rejected e)
      | (s3, none) => (s3, .resolved)

/-- Source `exports.setup` when nothing else runs while it is suspended. -/
def setup (config : Option Config) (events : List StoreEvent) (st : State) :
    State × Outcome :=
  setupWith config events [] st

/-! ## `start`: bind address -/

/-- Pieces of a character sequence between occurrences of `sep`, as
`String.prototype.split` with a one-character separator cuts them: every
occurrence ends a piece, and the empty string gives one empty piece. -/
def splitChars (sep : Char) : List Char → List (List Char)
  | [] => [[]]
  | c :: cs =>
    if c = sep then [] :: splitChars sep cs
    else match splitChars sep cs with
      | [] => [[c]]
      | p :: ps => (c :: p) :: ps

/-- JavaScript `s.split(sep)` for a one-character separator. -/
def split (s : String) (sep : Char) : List String :=
  (splitChars sep s.data).map String.mk

/-- JavaScript `x || d` for a string-or-undefined `x` used as a port: the
empty string and `undefined` are falsy. -/
def portOr (x : Option String) (d : Nat) : PortVal :=
  match x with
  | some s => if s = "" then .num d else .text s
  | none => .num d

/-- JavaScript truthiness of a `listen` value. -/
def ListenVal.truthy : ListenVal → Bool
  | .flag b => b
  | .text s => decide (s ≠ "")
  | .absent => false

/-- Host and port chosen by the HTTP branch of `start` (lines 164 to 172);
`none` where the value has no `split` method (a `TypeError`).  The array
returned by `split` always has an element 0. -/
def httpAddress : ListenVal → Option (String × PortVal)
  | .flag true => some ("0.0.0.0", .num 80)
  | .text s =>
    let httpListen := split s ':'
    some ((httpListen.head?).getD "", portOr (httpListen.get? 1) 80)
  | _ => none

/-- Host and port chosen by the HTTPS branch of `start` (lines 186 to 194);
`none` where the value has no `split` method (a `TypeError`).  The array
returned by `split` always has an element 0. -/
def httpsAddress : ListenVal → Option (String × PortVal)
  | .flag true => some ("0.0.0.0", .num 443)
  | .text s =>
    let httpsListen := split s ':'
    some ((httpsListen.head?).getD "", portOr (httpsListen.get? 1) 80)
  | _ => none

/-! ## `start` -/

/-- Which server a `listen` call belongs to. -/
inductive Proto where
  | http
  | https
  deriving DecidableEq

/-- What a `server.listen(port, host, callback)` call does: the socket
binds and the callback runs, the call throws, or the server emits `error`
and the callback never runs. -/
inductive ListenResult where
  | listening
  | throws
  | errorEvent
  deriving DecidableEq

/-- The platform as `start` sees it.  `readFile p` is
`fs.readFileSync(path.resolve(__dirname, "../../../..", p))`, `none` when it
throws; `secureContext key cert ca` tells whether `https.createServer`
accepts the material. -/
structure Env where
  listen : Proto → PortVal → String → ListenResult
  readFile : String → Option String
  secureContext : String → String → String → Bool

/-- Reading one piece of TLS material: a missing path makes `path.resolve`
throw a `TypeError`, an unreadable file makes `readFileSync` throw. -/
def readTls (env : Env) (p : Option String) : Except Err String :=
  match p with
  | none => .error .typeError
  | some p =>
    match env.readFile p with
    | none => .error .fileError
    | some d => .ok d

/-- The HTTP block of `start` (lines 163 to 182). -/
def startHttp (env : Env) (serverConfig : Config) (st : State) : State × Outcome :=
  match serverConfig.http with
  | none => (st, .rejected .typeError)
  | some http =>
    if http.listen.truthy then
      match httpAddress http.listen with
      | none => (st, .rejected .typeError)
      | some (httpHost, httpPort) =>
        match env.listen .http httpPort httpHost with
        | .listening =>
          ({ st with httpServer := some ⟨httpHost, httpPort, true⟩ }, .resolved)
        | .throws =>
          ({ st with httpServer := some ⟨httpHost, httpPort, false⟩ }, .rejected .listenError)
        | .errorEvent =>
          ({ st with httpServer := some ⟨httpHost, httpPort, false⟩ }, .pending)
    else (st, .resolved)

/-- The HTTPS block of `start` (lines 185 to 210). -/
def startHttps (env : Env) (serverConfig : Config) (st : State) : State × Outcome :=
  match serverConfig.https with
  | none => (st, .rejected .typeError)
  | some https =>
    if https.listen.truthy then
      match httpsAddress https.listen with
      | none => (st, .rejected .typeError)
      | some (httpsHost, httpsPort) =>
        match readTls env https.keyPath with
        | .error e => (st, .rejected e)
        | .ok key =>
        match readTls env https.certPath with
        | .error e => (st, .rejected e)
        | .ok cert =>
        match readTls env https.caPath with
        | .error e => (st, .rejected e)
        | .ok ca =>
          if env.secureContext key cert ca then
            match env.listen .https httpsPort httpsHost with
            | .listening =>
              ({ st with httpsServer := some ⟨httpsHost, httpsPort, true⟩ }, .resolved)
            | .throws =>
              ({ st with httpsServer := some ⟨httpsHost, httpsPort, false⟩ },
                .rejected .listenError)
            | .errorEvent =>
              ({ st with httpsServer := some ⟨httpsHost, httpsPort, false⟩ }, .pending)
          else (st, .rejected .tlsError)
    else (st, .resolved)

/-- Source `exports.start`: attach the route dispatch middleware, then the
HTTP block, then the HTTPS block. -/
def start (env : Env) (st : State) : State × Outcome :=
  let st := st.use .routeDispatch
  match st.serverConfig with
  | none => (st, .rejected .typeError)
  | some serverConfig =>
    match startHttp env serverConfig st with
    | (st, .resolved) => startHttps env serverConfig st
    | r => r

/-! ## `stop` -/

/-- Source `exports.stop`: each handle that is set is closed and the close
is awaited, in the order store, HTTP server, HTTPS server. -/
def stop (st : State) : State × Outcome :=
  let st := if st.sessionStore.isSome then
    { st with effects := st.effects ++ [.storeQuit] } else st
  let st := if st.httpServer.isSome then
    { st with effects := st.effects ++ [.httpClose] } else st
  let st := if st.httpsServer.isSome then
    { st with effects := st.effects ++ [.httpsClose] } else st
  (st, .resolved)

/-! ## Vocabulary of the specification -/

/-- What a registration call adds to the pipeline: one element, except for
`route`, which adds none. -/
def Call.entry : Call → List Mw
  | .middleware fn => [.user fn]
  | .folder p d o => [.staticMount p d o]
  | .route _ _ _ _ => []
  | .rewrite s d => [.rewriteRule s d]

/-- The pipeline elements added by a sequence of calls, in call order. -/
def entries (cs : List Call) : List Mw :=
  cs.flatMap Call.entry

/-- The CORS element of the pipeline: present exactly when `config.cors`
is set. -/
def corsPart (cfg : Config) : List Mw :=
  match cfg.cors with
  | some c => [.cors (corsOptions c)]
  | none => []

/-- The bind address as the specification words it: the host is the text
before the first colon and the port is all the text after the first colon,
the default when that text is empty or there is no colon. -/
def firstColonAddress (s : String) (dflt : Nat) : String × PortVal :=
  let host := s.data.takeWhile (fun c => c ≠ ':')
  let rest := (s.data.dropWhile (fun c => c ≠ ':')).drop 1
  (String.mk host, if rest = [] then .num dflt else .text (String.mk rest))

/-- The bind address as the code computes it, in the words of the
specification: the host is the text before the first colon and the port is
the text between the first colon and the next one (or the end of the string),
the default when that text is empty or there is no colon. -/
def betweenColonsAddress (s : String) (dflt : Nat) : String × PortVal :=
  let host := s.data.takeWhile (fun c => c ≠ ':')
  let rest := (s.data.dropWhile (fun c => c ≠ ':')).drop 1
  let piece := rest.takeWhile (fun c => c ≠ ':')
  (String.mk host, if piece = [] then .num dflt else .text (String.mk piece))

/-- Whether the handle that a close operation acts on is set. -/
def handlePresent (st : State) : Effect → Bool
  | .storeQuit => st.sessionStore.isSome
  | .httpClose => st.httpServer.isSome
  | .httpsClose => st.httpsServer.isSome

/-- The configuration of the end-to-end example: one cookie key, a session
section with its store, HTTP enabled, HTTPS disabled. -/
def demoConfig : Config :=
  { cookie := some { keys := some ["k"] }
    session := some { key := some "sid", maxAge := some 1000,
                      redis := some { url := some "redis://localhost/0" } }
    http := some { listen := .flag true }
    https := some { listen := .flag false } }

/-- A configuration with both listeners on `127.0.0.1`, ports 8080 and 8443. -/
def bothConfig : Config :=
  { demoConfig with
    http := some { listen := .text "127.0.0.1:8080" }
    https := some { listen := .text "127.0.0.1:8443", keyPath := some "key.pem",
                    certPath := some "cert.pem", caPath := some "ca.pem" } }

/-- A configuration with HTTP on `true` and HTTPS on `localhost:`, the port
left out. -/
def tlsConfig : Config :=
  { demoConfig with
    https := some { listen := .text "localhost:", keyPath := some "key.pem",
                    certPath := some "cert.pem", caPath := some "ca.pem" } }

/-- The end-to-end configuration with HTTP on `127.0.0.1:99999`, a port
text that is no valid port number. -/
def badPortConfig : Config :=
  { demoConfig with http := some { listen := .text "127.0.0.1:99999" } }

/-- Value of a non-empty string of decimal digits, `none` for any other
string. -/
def decimalValue : List Char → Option Nat
  | [] => none
  | c :: cs =>
    if (c :: cs).all Char.isDigit then
      some ((c :: cs).foldl (fun n d => 10 * n + (d.toNat - 48)) 0)
    else none

/-- Whether a port argument is a decimal number above 65535. -/
def PortVal.outOfRange : PortVal → Bool
  | .num n => decide (65535 < n)
  | .text s =>
    match decimalValue s.data with
    | some n => decide (65535 < n)
    | none => false

/-- A platform that refuses a decimal port above 65535 the way
`server.listen` does, by throwing, and binds every other request. -/
def Env.rangeChecked : Env :=
  { listen := fun _ p _ => if p.outOfRange then .throws else .listening
    readFile := fun p => some p
    secureContext := fun _ _ _ => true }

/-- A platform on which every bind succeeds and no file can be read. -/
def Env.noFiles : Env :=
  { listen := fun _ _ _ => .listening
    readFile := fun _ => none
    secureContext := fun _ _ _ => true }

/-- A platform on which no socket can be bound: every `listen` ends in an
`error` event. -/
def Env.portsTaken : Env :=
  { listen := fun _ _ _ => .errorEvent
    readFile := fun p => some p
    secureContext := fun _ _ _ => true }

/-- A platform on which every bind succeeds and every file is readable. -/
def Env.allOk : Env :=
  { listen := fun _ _ _ => .listening
    readFile := fun p => some p
    secureContext := fun _ _ _ => true }

/-! ## The pipeline under registration calls -/

theorem run_middleware (c : Call) (st : State) :
    (c.run st).middleware = st.middleware ++ c.entry := by
  cases c <;> simp [Call.run, Call.entry, Webserver.middleware, Webserver.folder,
    Webserver.route, Webserver.rewrite, State.use]

theorem run_serverConfig (c : Call) (st : State) :
    (c.run st).serverConfig = st.serverConfig := by
  cases c <;> rfl

theorem run_sessionStore (c : Call) (st : State) :
    (c.run st).sessionStore = st.sessionStore := by
  cases c <;> rfl

theorem runCalls_middleware (cs : List Call) (st : State) :
    (runCalls cs st).middleware = st.middleware ++ entries cs := by
  induction cs generalizing st with
  | nil => simp [runCalls, entries]
  | cons c cs ih =>
    have h := ih (c.run st)
    simp only [runCalls, List.foldl_cons] at h ⊢
    rw [h, run_middleware]
    simp [entries]

theorem runCalls_serverConfig (cs : List Call) (st : State) :
    (runCalls cs st).serverConfig = st.serverConfig := by
  induction cs generalizing st with
  | nil => rfl
  | cons c cs ih =>
    have h := ih (c.run st)
    simp only [runCalls, List.foldl_cons] at h ⊢
    rw [h, run_serverConfig]

theorem runCalls_sessionStore (cs : List Call) (st : State) :
    (runCalls cs st).sessionStore = st.sessionStore := by
  induction cs generalizing st with
  | nil => rfl
  | cons c cs ih =>
    have h := ih (c.run st)
    simp only [runCalls, List.foldl_cons] at h ⊢
    rw [h, run_sessionStore]

/-! ## `start` leaves the pipeline alone after attaching the dispatcher -/

theorem startHttp_middleware (env : Env) (cfg : Config) (st : State) :
    (startHttp env cfg st).1.middleware = st.middleware := by
  unfold startHttp
  split
  · rfl
  · split
    · split
      · rfl
      · split <;> rfl
    · rfl

theorem startHttps_middleware (env : Env) (cfg : Config) (st : State) :
    (startHttps env cfg st).1.middleware = st.middleware := by
  unfold startHttps
  repeat (first | rfl | split)

theorem start_middleware (env : Env) (st : State) :
    (start env st).1.middleware = st.middleware ++ [.routeDispatch] := by
  unfold start
  simp only []
  split
  · rfl
  · rename_i cfg _
    split
    · rename_i st1 h
      rw [startHttps_middleware]
      have := startHttp_middleware env cfg (st.use .routeDispatch)
      rw [h] at this
      exact this
    · exact startHttp_middleware env cfg (st.use .routeDispatch)

/-! ## The store promise -/

theorem emit_settled (w : StoreWait) (ev : StoreEvent) (h : w.promise ≠ .pending) :
    (w.emit ev).promise = w.promise := by
  cases ev with
  | ready =>
    simp only [StoreWait.emit]
    split
    · cases hp : w.promise <;> simp_all [Promise.resolve]
    · rfl
  | error e =>
    simp only [StoreWait.emit]
    split
    · cases hp : w.promise <;> simp_all [Promise.reject]
    · rfl
  | other n => rfl

theorem foldl_emit_settled (events : List StoreEvent) (w : StoreWait)
    (h : w.promise ≠ .pending) :
    (events.foldl StoreWait.emit w).promise = w.promise := by
  induction events generalizing w with
  | nil => rfl
  | cons ev rest ih =>
    have h1 := emit_settled w ev h
    simp only [List.foldl_cons]
    rw [ih (w.emit ev) (by rw [h1]; exact h), h1]

theorem foldl_emit_quiet (quiet : List StoreEvent) (w : StoreWait)
    (hq : ∀ ev ∈ quiet, ∃ n, ev = .other n) :
    quiet.foldl StoreWait.emit w = w := by
  induction quiet generalizing w with
  | nil => rfl
  | cons ev rest ih =>
    obtain ⟨n, rfl⟩ := hq _ (List.mem_cons_self _ _)
    simp only [List.foldl_cons, StoreWait.emit]
    exact ih w (fun x hx => hq x (List.mem_cons_of_mem _ hx))

theorem awaitStore_error_first (quiet rest : List StoreEvent) (e : String)
    (hq : ∀ ev ∈ quiet, ∃ n, ev = .other n) :
    awaitStore (quiet ++ .error e :: rest) = .rejected e := by
  unfold awaitStore
  rw [List.foldl_append, foldl_emit_quiet quiet _ hq, List.foldl_cons,
    foldl_emit_settled rest _ (by simp [StoreWait.emit, Promise.reject])]
  simp [StoreWait.emit, Promise.reject]

theorem awaitStore_ready_first (quiet rest : List StoreEvent)
    (hq : ∀ ev ∈ quiet, ∃ n, ev = .other n) :
    awaitStore (quiet ++ .ready :: rest) = .fulfilled := by
  unfold awaitStore
  rw [List.foldl_append, foldl_emit_quiet quiet _ hq, List.foldl_cons,
    foldl_emit_settled rest _ (by simp [StoreWait.emit, Promise.resolve])]
  simp [StoreWait.emit, Promise.resolve]

/-! ## `setup` on a configuration with its sections present -/

theorem setupSync_ok (cfg : Config) (ck : Cookie) (s : Session) (r : Redis) (st : State)
    (hck : cfg.cookie = some ck) (hs : cfg.session = some s) (hr : s.redis = some r) :
    (setupSync (some cfg) st).2 = none
    ∧ (setupSync (some cfg) st).1.middleware = st.middleware ++ .accessLog :: corsPart cfg
    ∧ (setupSync (some cfg) st).1.serverConfig = some cfg
    ∧ (setupSync (some cfg) st).1.sessionStore = some ⟨r.url, r.db⟩ := by
  cases hc : cfg.cors <;>
    simp [setupSync, hck, hs, hr, hc, corsPart, State.use]

theorem setupWith_resolved (cfg : Config) (ck : Cookie) (s : Session) (r : Redis)
    (events : List StoreEvent) (during : List Call) (st : State)
    (hck : cfg.cookie = some ck) (hs : cfg.session = some s) (hr : s.redis = some r)
    (hev : awaitStore events = .fulfilled) :
    (setupWith (some cfg) events during st).2 = .resolved
    ∧ (setupWith (some cfg) events during st).1.middleware
        = st.middleware ++ .accessLog :: corsPart cfg ++ entries during
          ++ [.session (sessionOptions s (some ⟨r.url, r.db⟩)), .passportInit,
              .passportSession] := by
  obtain ⟨h2, hm, hcfg, hst⟩ := setupSync_ok cfg ck s r st hck hs hr
  have hcfg2 := runCalls_serverConfig during (setupSync (some cfg) st).1
  have hst2 := runCalls_sessionStore during (setupSync (some cfg) st).1
  have hm2 := runCalls_middleware during (setupSync (some cfg) st).1
  rw [hcfg] at hcfg2
  rw [hst] at hst2
  rw [hm] at hm2
  unfold setupWith
  generalize setupSync (some cfg) st = p at h2 hcfg2 hst2 hm2
  obtain ⟨s1, o⟩ := p
  simp only at h2 hcfg2 hst2 hm2
  subst h2
  simp only [hev, setupResume, hcfg2, hs, hst2, State.use, hm2]
  simp

theorem setupWith_store_error (cfg : Config) (ck : Cookie) (s : Session) (r : Redis)
    (events : List StoreEvent) (during : List Call) (st : State) (e : String)
    (hck : cfg.cookie = some ck) (hs : cfg.session = some s) (hr : s.redis = some r)
    (hev : awaitStore events = .rejected e) :
    (setupWith (some cfg) events during st).2 = .rejected (.storeError e)
    ∧ (setupWith (some cfg) events during st).1.middleware
        = st.middleware ++ .accessLog :: corsPart cfg ++ entries during := by
  obtain ⟨h2, hm, -, -⟩ := setupSync_ok cfg ck s r st hck hs hr
  have hm2 := runCalls_middleware during (setupSync (some cfg) st).1
  rw [hm] at hm2
  unfold setupWith
  generalize setupSync (some cfg) st = p at h2 hm2
  obtain ⟨s1, o⟩ := p
  simp only at h2 hm2
  subst h2
  simp only [hev, hm2]
  simp

theorem setupSync_missing_section (cfg : Config) (st : State)
    (h : cfg.cookie = none ∨ cfg.session = none
      ∨ ∃ s, cfg.session = some s ∧ s.redis = none) :
    (setupSync (some cfg) st).2 = some .typeError := by
  cases hck : cfg.cookie with
  | none => simp [setupSync, hck]
  | some ck =>
    rcases h with h | h | ⟨s, h, hr⟩
    · simp [hck] at h
    · simp [setupSync, hck, h]
    · simp [setupSync, hck, h, hr]

/-! ## Claims about the pipeline -/

/-- C1: whatever registration calls (`middleware`, `folder`, `route`,
`rewrite`, in any order and number) precede `start`, and whatever the state
they started from, the pipeline right after `start` is the pipeline those
calls built followed by the route dispatch middleware, which is therefore
its last element. -/
theorem route_dispatch_last (env : Env) (st : State) (cs : List Call) :
    (start env (runCalls cs st)).1.middleware
        = st.middleware ++ entries cs ++ [.routeDispatch]
    ∧ (start env (runCalls cs st)).1.middleware.getLast? = some .routeDispatch := by
  have h := start_middleware env (runCalls cs st)
  rw [runCalls_middleware] at h
  exact ⟨h, by rw [h]; simp⟩

/-- C2, as stated, fails: a `middleware` call made before `setup` lands
ahead of access logging, so the pipeline after `start` does not begin with
access logging; and when the store reports an error, `setup` rejects and a
following `start` leaves a pipeline with no session or authentication
element at all. -/
theorem pipeline_order_counterexample :
    (setup (some demoConfig) [.ready] (middleware 7 State.init)).2 = .resolved
    ∧ (start Env.allOk
        (setup (some demoConfig) [.ready] (middleware 7 State.init)).1).1.middleware
        = [.user 7, .accessLog,
           .session (sessionOptions ⟨some "sid", some 1000, none⟩
             (some ⟨some "redis://localhost/0", none⟩)),
           .passportInit, .passportSession, .routeDispatch]
    ∧ (start Env.allOk
        (setup (some demoConfig) [.ready] (middleware 7 State.init)).1).1.middleware.head?
        ≠ some .accessLog
    ∧ (setup (some demoConfig) [.error "down"] State.init).2
        = .rejected (.storeError "down")
    ∧ (start Env.allOk
        (setup (some demoConfig) [.error "down"] State.init).1).1.middleware
        = [.accessLog, .routeDispatch] := by
  decide

/-- C2, amended: when the configuration has its cookie and session sections
and the store becomes ready, `setup` resolves and the pipeline after `start`
is: the registrations made before `setup`, access logging, CORS (present
exactly when `config.cors` is set), the registrations made while `setup`
waited for the store, session, passport initialize, passport session, the
registrations made after `setup` resolved, and route dispatch last; each
group in registration order.  With no registration before or during `setup`
this is the order the claim gives. -/
theorem pipeline_order (env : Env) (cfg : Config) (ck : Cookie) (s : Session) (r : Redis)
    (events : List StoreEvent) (before during after : List Call)
    (hck : cfg.cookie = some ck) (hs : cfg.session = some s) (hr : s.redis = some r)
    (hev : awaitStore events = .fulfilled) :
    (setupWith (some cfg) events during (runCalls before State.init)).2 = .resolved
    ∧ (start env (runCalls after
        (setupWith (some cfg) events during (runCalls before State.init)).1)).1.middleware
        = entries before ++ .accessLog :: corsPart cfg ++ entries during
          ++ [.session (sessionOptions s (some ⟨r.url, r.db⟩)), .passportInit,
              .passportSession]
          ++ entries after ++ [.routeDispatch] := by
  obtain ⟨h1, h2⟩ := setupWith_resolved cfg ck s r events during
    (runCalls before State.init) hck hs hr hev
  refine ⟨h1, ?_⟩
  rw [start_middleware, runCalls_middleware, h2, runCalls_middleware]
  simp [State.init]

/-- Witness for C2: one call before, one during and one after `setup`, with
CORS configured. -/
theorem pipeline_order_witness :
    (start Env.allOk (runCalls [.rewrite "/old" "/new"]
        (setupWith (some { demoConfig with cors := some {} }) [.other "connect", .ready]
          [.folder "/static" "public" none]
          (runCalls [.middleware 7] State.init)).1)).1.middleware
      = [.user 7, .accessLog, .cors (corsOptions {}),
         .staticMount "/static" "public" none,
         .session (sessionOptions ⟨some "sid", some 1000, none⟩
           (some ⟨some "redis://localhost/0", none⟩)),
         .passportInit, .passportSession, .rewriteRule "/old" "/new", .routeDispatch] :=
  (pipeline_order Env.allOk { demoConfig with cors := some {} } { keys := some ["k"] }
    { key := some "sid", maxAge := some 1000,
      redis := some { url := some "redis://localhost/0" } }
    { url := some "redis://localhost/0" }
    [.other "connect", .ready] [.middleware 7] [.folder "/static" "public" none]
    [.rewrite "/old" "/new"] rfl rfl rfl (by decide)).2

/-! ## Claims about `stop` -/

/-- C6: for every state of the three handles, `stop` resolves and the close
operations it performs are exactly those of `[store quit, HTTP close, HTTPS
close]` whose handle is set, in that order; so with no HTTPS handle no HTTPS
close is performed. -/
theorem stop_closes_present_handles (st : State) :
    (stop st).2 = .resolved
    ∧ (stop st).1.effects
        = st.effects ++ [Effect.storeQuit, .httpClose, .httpsClose].filter (handlePresent st)
    ∧ (st.httpsServer = none →
        Effect.httpsClose ∉
          [Effect.storeQuit, .httpClose, .httpsClose].filter (handlePresent st)) := by
  refine ⟨rfl, ?_, ?_⟩
  · cases h1 : st.sessionStore <;> cases h2 : st.httpServer <;> cases h3 : st.httpsServer <;>
      simp [stop, handlePresent, h1, h2, h3, List.filter]
  · intro h
    simp [List.filter, handlePresent, h]
    cases st.sessionStore <;> cases st.httpServer <;> simp

/-- Witness for C6: a store and an HTTP listener, no HTTPS listener. -/
theorem stop_closes_present_handles_witness :
    (stop { sessionStore := some ⟨none, none⟩,
            httpServer := some ⟨"0.0.0.0", .num 80, true⟩ }).1.effects
      = [.storeQuit, .httpClose]
    ∧ Effect.httpsClose ∉
        [Effect.storeQuit, .httpClose, .httpsClose].filter
          (handlePresent { sessionStore := some ⟨none, none⟩,
                           httpServer := some ⟨"0.0.0.0", .num 80, true⟩ }) :=
  ⟨((stop_closes_present_handles
      { sessionStore := some ⟨none, none⟩,
        httpServer := some ⟨"0.0.0.0", .num 80, true⟩ }).2.1).trans (by decide),
   (stop_closes_present_handles
      { sessionStore := some ⟨none, none⟩,
        httpServer := some ⟨"0.0.0.0", .num 80, true⟩ }).2.2 rfl⟩

/-! ## Claims about the errors of `setup` -/

/-- C7, as stated, fails: a configuration with a cookie section that holds
no keys is accepted; `setup` stores `undefined` as the keys and resolves. -/
theorem setup_missing_keys_counterexample :
    (setup (some { demoConfig with cookie := some { keys := none } }) [.ready]
        State.init).2 = .resolved
    ∧ (setup (some { demoConfig with cookie := some { keys := none } }) [.ready]
        State.init).1.keys = none := by
  decide

/-- C7, amended: `setup` rejects, with the `TypeError` of reading a property
of a missing section, for every configuration in which the cookie section
is absent, the session section is absent, or the session section has no
store section; this holds whatever the store does. -/
theorem setup_rejects_missing_section (cfg : Config) (events : List StoreEvent)
    (st : State)
    (h : cfg.cookie = none ∨ cfg.session = none
      ∨ ∃ s, cfg.session = some s ∧ s.redis = none) :
    (setup (some cfg) events st).2 = .rejected .typeError := by
  have hsync := setupSync_missing_section cfg st h
  unfold setup setupWith
  generalize setupSync (some cfg) st = p at hsync
  obtain ⟨s1, o⟩ := p
  simp only at hsync
  subst hsync
  rfl

/-- Witness for C7: the configuration without its session section. -/
theorem setup_rejects_missing_section_witness :
    (setup (some { demoConfig with session := none }) [.ready] State.init).2
      = .rejected .typeError :=
  setup_rejects_missing_section { demoConfig with session := none } [.ready] State.init
    (Or.inr (Or.inl rfl))

/-- C8: on a configuration with its cookie and session sections, the store
step of `setup` is decided by the first of the store events `ready` and
`error`.  If `error` comes first, after any events of other names, `setup`
rejects with that error and the pipeline holds only what was attached before
the wait, so neither session nor authentication middleware; if `ready`
comes first, `setup` resolves and attaches them, whatever events follow,
a later `error` included. -/
theorem store_first_event_decides (cfg : Config) (ck : Cookie) (s : Session) (r : Redis)
    (st : State) (quiet rest : List StoreEvent) (e : String)
    (hck : cfg.cookie = some ck) (hs : cfg.session = some s) (hr : s.redis = some r)
    (hq : ∀ ev ∈ quiet, ∃ n, ev = .other n) :
    ((setup (some cfg) (quiet ++ .error e :: rest) st).2 = .rejected (.storeError e)
      ∧ (setup (some cfg) (quiet ++ .error e :: rest) st).1.middleware
          = st.middleware ++ .accessLog :: corsPart cfg)
    ∧ ((setup (some cfg) (quiet ++ .ready :: rest) st).2 = .resolved
      ∧ (setup (some cfg) (quiet ++ .ready :: rest) st).1.middleware
          = st.middleware ++ .accessLog :: corsPart cfg
            ++ [.session (sessionOptions s (some ⟨r.url, r.db⟩)), .passportInit,
                .passportSession]) := by
  constructor
  · have h := setupWith_store_error cfg ck s r (quiet ++ .error e :: rest) [] st e hck hs hr
      (awaitStore_error_first quiet rest e hq)
    simpa [setup, entries] using h
  · have h := setupWith_resolved cfg ck s r (quiet ++ .ready :: rest) [] st hck hs hr
      (awaitStore_ready_first quiet rest hq)
    simpa [setup, entries] using h

/-- Witness for C8: `error` then `ready` rejects, `ready` then `error`
resolves. -/
theorem store_first_event_decides_witness :
    (setup (some demoConfig) [.other "connect", .error "down", .ready] State.init).2
        = .rejected (.storeError "down")
    ∧ (setup (some demoConfig) [.other "connect", .ready, .error "down"] State.init).2
        = .resolved :=
  have h := store_first_event_decides demoConfig { keys := some ["k"] }
    { key := some "sid", maxAge := some 1000,
      redis := some { url := some "redis://localhost/0" } }
    { url := some "redis://localhost/0" } State.init [.other "connect"]
  ⟨(h [.ready] "down" rfl rfl rfl (by simp)).1.1, (h [.error "down"] "down" rfl rfl rfl (by simp)).2.1⟩

/-! ## Splitting a listen string -/

theorem splitChars_ne_nil (sep : Char) (l : List Char) : splitChars sep l ≠ [] := by
  cases l with
  | nil => simp [splitChars]
  | cons c cs =>
    simp only [splitChars]
    split
    · simp
    · split <;> simp

theorem splitChars_no_sep (sep : Char) (l : List Char) (h : sep ∉ l) :
    splitChars sep l = [l] := by
  induction l with
  | nil => rfl
  | cons c cs ih =>
    have hc : c ≠ sep := fun hcs => h (hcs ▸ List.mem_cons_self _ _)
    have ht : sep ∉ cs := fun hm => h (List.mem_cons_of_mem _ hm)
    simp [splitChars, hc, ih ht]

theorem splitChars_append (sep : Char) (l t : List Char) (h : sep ∉ l) :
    splitChars sep (l ++ sep :: t) = l :: splitChars sep t := by
  induction l with
  | nil => simp [splitChars]
  | cons c cs ih =>
    have hc : c ≠ sep := fun hcs => h (hcs ▸ List.mem_cons_self _ _)
    have ht : sep ∉ cs := fun hm => h (List.mem_cons_of_mem _ hm)
    simp [splitChars, hc, ih ht]

theorem splitChars_cut (sep : Char) (l : List Char) :
    splitChars sep l
      = l.takeWhile (fun c => c ≠ sep)
        :: (match l.dropWhile (fun c => c ≠ sep) with
            | [] => []
            | _ :: rest => splitChars sep rest) := by
  induction l with
  | nil => rfl
  | cons c cs ih =>
    by_cases hc : c = sep
    · simp [splitChars, hc]
    · rw [splitChars, if_neg hc, ih]
      simp [hc]

theorem split_host_port (host port : String) (hh : ':' ∉ host.data) (hp : ':' ∉ port.data) :
    split (host ++ ":" ++ port) ':' = [host, port] := by
  have hd : (host ++ ":" ++ port).data = host.data ++ ':' :: port.data := by
    simp [String.data_append]
  unfold split
  rw [hd, splitChars_append _ _ _ hh, splitChars_no_sep _ _ hp]
  rfl

theorem split_host_only (host : String) (hh : ':' ∉ host.data) :
    split host ':' = [host] := by
  unfold split
  rw [splitChars_no_sep _ _ hh]
  rfl

theorem split_host_colon (host : String) (hh : ':' ∉ host.data) :
    split (host ++ ":") ':' = [host, ""] := by
  have hd : (host ++ ":").data = host.data ++ ':' :: [] := by
    simp [String.data_append]
  unfold split
  rw [hd, splitChars_append _ _ _ hh]
  rfl

theorem mk_eq_empty (l : List Char) : String.mk l = "" ↔ l = [] := by
  constructor
  · intro h
    have := congrArg String.data h
    simpa using this
  · rintro rfl
    rfl

theorem split_between_colons (s : String) :
    ((split s ':').head?).getD "" = String.mk (s.data.takeWhile (fun c => c ≠ ':'))
    ∧ portOr ((split s ':').get? 1) 80 = (betweenColonsAddress s 80).2 := by
  unfold split betweenColonsAddress
  rw [splitChars_cut]
  constructor
  · simp
  · cases hrest : s.data.dropWhile (fun c => c ≠ ':') with
    | nil => simp [portOr]
    | cons c rest =>
      simp only [List.map_cons, List.get?_cons_succ, List.drop_succ_cons, List.drop_zero]
      rw [splitChars_cut]
      simp [portOr, mk_eq_empty]

/-! ## The listener handles after `start` -/

theorem startHttps_httpServer (env : Env) (cfg : Config) (st : State) :
    (startHttps env cfg st).1.httpServer = st.httpServer := by
  unfold startHttps
  repeat (first | rfl | split)

theorem startHttp_enabled (env : Env) (cfg : Config) (http : Http) (st : State)
    (host : String) (port : PortVal)
    (hhttp : cfg.http = some http) (ht : http.listen.truthy = true)
    (ha : httpAddress http.listen = some (host, port)) :
    (startHttp env cfg st).1.httpServer
      = some ⟨host, port, decide (env.listen .http port host = .listening)⟩ := by
  unfold startHttp
  simp only [hhttp, ht, ha, if_true]
  cases env.listen .http port host <;> simp

theorem start_httpServer (env : Env) (st : State) (cfg : Config) (http : Http)
    (host : String) (port : PortVal)
    (hcfg : st.serverConfig = some cfg) (hhttp : cfg.http = some http)
    (ht : http.listen.truthy = true) (ha : httpAddress http.listen = some (host, port)) :
    (start env st).1.httpServer
      = some ⟨host, port, decide (env.listen .http port host = .listening)⟩ := by
  have h := startHttp_enabled env cfg http (st.use .routeDispatch) host port hhttp ht ha
  have hc : (st.use .routeDispatch).serverConfig = some cfg := hcfg
  unfold start
  simp only [hc]
  split
  · rename_i st1 hst
    rw [startHttps_httpServer]
    rw [hst] at h
    exact h
  · exact h

theorem startHttps_enabled (env : Env) (cfg : Config) (https : Https) (st : State)
    (host : String) (port : PortVal) (key cert ca : String)
    (hhttps : cfg.https = some https) (ht : https.listen.truthy = true)
    (ha : httpsAddress https.listen = some (host, port))
    (hkey : readTls env https.keyPath = .ok key)
    (hcert : readTls env https.certPath = .ok cert)
    (hca : readTls env https.caPath = .ok ca)
    (hsec : env.secureContext key cert ca = true) :
    (startHttps env cfg st).1.httpsServer
      = some ⟨host, port, decide (env.listen .https port host = .listening)⟩ := by
  unfold startHttps
  simp only [hhttps, ht, ha, hkey, hcert, hca, hsec, if_true]
  cases env.listen .https port host <;> simp

theorem start_httpsServer (env : Env) (st : State) (cfg : Config) (https : Https)
    (host : String) (port : PortVal) (key cert ca : String)
    (hcfg : st.serverConfig = some cfg)
    (hfirst : (startHttp env cfg (st.use .routeDispatch)).2 = .resolved)
    (hhttps : cfg.https = some https) (ht : https.listen.truthy = true)
    (ha : httpsAddress https.listen = some (host, port))
    (hkey : readTls env https.keyPath = .ok key)
    (hcert : readTls env https.certPath = .ok cert)
    (hca : readTls env https.caPath = .ok ca)
    (hsec : env.secureContext key cert ca = true) :
    (start env st).1.httpsServer
      = some ⟨host, port, decide (env.listen .https port host = .listening)⟩ := by
  have hc : (st.use .routeDispatch).serverConfig = some cfg := hcfg
  unfold start
  simp only [hc]
  generalize startHttp env cfg (st.use .routeDispatch) = p at hfirst
  obtain ⟨st1, o⟩ := p
  simp only at hfirst
  subst hfirst
  exact startHttps_enabled env cfg https st1 host port key cert ca hhttps ht ha hkey hcert
    hca hsec

theorem truthy_host_port (host port : String) :
    (ListenVal.text (host ++ ":" ++ port)).truthy = true := by
  have hd : (host ++ ":" ++ port).data = host.data ++ ':' :: port.data := by
    simp [String.data_append]
  have hne : host ++ ":" ++ port ≠ "" := by
    intro h
    have := congrArg String.data h
    rw [hd] at this
    simp at this
  simp [ListenVal.truthy, hne]

/-! ## Claims about the listeners -/

/-- C3, as stated, fails: with `http.listen = true` and no `https` section
the HTTP listener is bound but `start` rejects, since it reads `listen` of
the missing section; and with the `https` section present `start` still does
not resolve on a platform where the port cannot be bound. -/
theorem start_http_only_counterexample :
    (start Env.allOk
        (setup (some { demoConfig with https := none }) [.ready] State.init).1).2
      = .rejected .typeError
    ∧ (start Env.allOk
        (setup (some { demoConfig with https := none }) [.ready] State.init).1).1.httpServer
      = some ⟨"0.0.0.0", .num 80, true⟩
    ∧ (start Env.portsTaken (setup (some demoConfig) [.ready] State.init).1).2 = .pending := by
  decide

/-- C3, amended: when `http.listen` is `true`, the platform binds
`0.0.0.0:80`, no HTTPS handle exists yet, and the `https` section, if there
is one, has a falsy `listen` (`false`, missing or the empty string), then
after `start` the HTTP handle is a listener on host `0.0.0.0` and port 80 and
no HTTPS handle is created; `start` resolves when the `https` section is
present and rejects with a `TypeError` when it is missing. -/
theorem start_http_only (env : Env) (st : State) (cfg : Config) (http : Http)
    (hcfg : st.serverConfig = some cfg) (hhttp : cfg.http = some http)
    (hl : http.listen = .flag true)
    (hoff : ∀ https, cfg.https = some https → https.listen.truthy = false)
    (hbind : env.listen .http (.num 80) "0.0.0.0" = .listening)
    (hnone : st.httpsServer = none) :
    (start env st).1.httpServer = some ⟨"0.0.0.0", .num 80, true⟩
    ∧ (start env st).1.httpsServer = none
    ∧ (start env st).2
        = if cfg.https.isSome then .resolved else .rejected .typeError := by
  have hc : (st.use .routeDispatch).serverConfig = some cfg := hcfg
  have hs : (st.use .routeDispatch).httpsServer = none := hnone
  have ht : http.listen.truthy = true := by rw [hl]; rfl
  have ha : httpAddress http.listen = some ("0.0.0.0", .num 80) := by rw [hl]; rfl
  cases hh : cfg.https with
  | none =>
    simp [start, hc, startHttp, hhttp, ht, ha, hbind, startHttps, hh, hs]
  | some https =>
    have := hoff https hh
    simp [start, hc, startHttp, hhttp, ht, ha, hbind, startHttps, hh, hs, this]

/-- Witness for C3: the end-to-end configuration after `setup`. -/
theorem start_http_only_witness :
    (start Env.allOk (setup (some demoConfig) [.ready] State.init).1).1.httpServer
        = some ⟨"0.0.0.0", .num 80, true⟩
    ∧ (start Env.allOk (setup (some demoConfig) [.ready] State.init).1).1.httpsServer = none
    ∧ (start Env.allOk (setup (some demoConfig) [.ready] State.init).1).2 = .resolved :=
  start_http_only Env.allOk (setup (some demoConfig) [.ready] State.init).1 demoConfig
    { listen := .flag true } (by decide) rfl rfl (by decide) rfl (by decide)

/-- C4, as stated, fails: `start` hands host and port to `listen` and the
platform decides what is bound.  With `127.0.0.1:99999` the port text is no
valid port, `listen` throws, `start` rejects and nothing listens; with
`127.0.0.1:8080` on a platform that cannot bind, nothing listens either and
`start` never settles; and with `127.0.0.1:8443` on the HTTPS listener but
unreadable TLS material, `start` rejects before any HTTPS server exists. -/
theorem listen_host_port_counterexample :
    (start Env.rangeChecked (setup (some badPortConfig) [.ready] State.init).1).2
        = .rejected .listenError
    ∧ (start Env.rangeChecked
        (setup (some badPortConfig) [.ready] State.init).1).1.httpServer
        = some ⟨"127.0.0.1", .text "99999", false⟩
    ∧ (start Env.portsTaken (setup (some bothConfig) [.ready] State.init).1).2 = .pending
    ∧ (start Env.portsTaken (setup (some bothConfig) [.ready] State.init).1).1.httpServer
        = some ⟨"127.0.0.1", .text "8080", false⟩
    ∧ (start Env.noFiles (setup (some bothConfig) [.ready] State.init).1).2
        = .rejected .fileError
    ∧ (start Env.noFiles (setup (some bothConfig) [.ready] State.init).1).1.httpsServer
        = none := by
  decide

/-- C4, amended: for a host and a non-empty port, neither containing a
colon, the listen value `host:port` makes `start` call `listen` with exactly
that host and exactly that port text as its arguments, and the server
listens there exactly when the platform accepts the arguments and binds the
socket.  On the HTTP server this holds in every state whose configuration
has that value; on the HTTPS server it holds whenever `start` gets as far as
creating the server, that is when the HTTP block has resolved and the TLS
material loads. -/
theorem listen_host_port_exact (host port : String) (hh : ':' ∉ host.data)
    (hp : ':' ∉ port.data) (hne : port ≠ "") :
    (∀ (env : Env) (st : State) (cfg : Config) (http : Http),
      st.serverConfig = some cfg → cfg.http = some http →
      http.listen = .text (host ++ ":" ++ port) →
      (start env st).1.httpServer
        = some ⟨host, .text port, decide (env.listen .http (.text port) host = .listening)⟩)
    ∧ (∀ (env : Env) (st : State) (cfg : Config) (https : Https) (key cert ca : String),
      st.serverConfig = some cfg → cfg.https = some https →
      https.listen = .text (host ++ ":" ++ port) →
      (startHttp env cfg (st.use .routeDispatch)).2 = .resolved →
      readTls env https.keyPath = .ok key → readTls env https.certPath = .ok cert →
      readTls env https.caPath = .ok ca → env.secureContext key cert ca = true →
      (start env st).1.httpsServer
        = some ⟨host, .text port,
            decide (env.listen .https (.text port) host = .listening)⟩) := by
  have ht := truthy_host_port host port
  have hsplit := split_host_port host port hh hp
  constructor
  · intro env st cfg http hcfg hhttp hl
    refine start_httpServer env st cfg http host (.text port) hcfg hhttp (hl ▸ ht) ?_
    simp [hl, httpAddress, hsplit, portOr, hne]
  · intro env st cfg https key cert ca hcfg hhttps hl hfirst hkey hcert hca hsec
    refine start_httpsServer env st cfg https host (.text port) key cert ca hcfg hfirst hhttps
      (hl ▸ ht) ?_ hkey hcert hca hsec
    simp [hl, httpsAddress, hsplit, portOr, hne]

/-- Witness for C4: `127.0.0.1:8080` on the HTTP listener and
`127.0.0.1:8443` on the HTTPS listener. -/
theorem listen_host_port_exact_witness :
    (start Env.allOk (setup (some bothConfig) [.ready] State.init).1).1.httpServer
        = some ⟨"127.0.0.1", .text "8080", true⟩
    ∧ (start Env.allOk (setup (some bothConfig) [.ready] State.init).1).1.httpsServer
        = some ⟨"127.0.0.1", .text "8443", true⟩ :=
  ⟨(listen_host_port_exact "127.0.0.1" "8080" (by decide) (by decide) (by decide)).1
      Env.allOk (setup (some bothConfig) [.ready] State.init).1 bothConfig
      { listen := .text "127.0.0.1:8080" } (by decide) rfl rfl,
   (listen_host_port_exact "127.0.0.1" "8443" (by decide) (by decide) (by decide)).2
      Env.allOk (setup (some bothConfig) [.ready] State.init).1 bothConfig
      { listen := .text "127.0.0.1:8443", keyPath := some "key.pem",
        certPath := some "cert.pem", caPath := some "ca.pem" }
      "key.pem" "cert.pem" "ca.pem" (by decide) rfl rfl (by decide) rfl rfl rfl rfl⟩

/-! ## Claims about the bind address -/

/-- C9: when the listen value is a string with the port omitted, that is a
host without a colon, alone or followed by one colon and nothing more, the
port chosen is the number 80 in the HTTP block and also the number 80, not
443, in the HTTPS block; the HTTPS block chooses its default 443 only for
the literal `true`. -/
theorem omitted_port_is_80 (host : String) (hh : ':' ∉ host.data) :
    httpAddress (.text host) = some (host, .num 80)
    ∧ httpAddress (.text (host ++ ":")) = some (host, .num 80)
    ∧ httpsAddress (.text host) = some (host, .num 80)
    ∧ httpsAddress (.text (host ++ ":")) = some (host, .num 80)
    ∧ (∀ (l : ListenVal) (h : String),
        httpsAddress l = some (h, .num 443) ↔ l = .flag true ∧ h = "0.0.0.0")
    ∧ (∀ (env : Env) (st : State) (cfg : Config) (https : Https) (key cert ca : String),
        st.serverConfig = some cfg → cfg.https = some https →
        https.listen = .text (host ++ ":") →
        (startHttp env cfg (st.use .routeDispatch)).2 = .resolved →
        readTls env https.keyPath = .ok key → readTls env https.certPath = .ok cert →
        readTls env https.caPath = .ok ca → env.secureContext key cert ca = true →
        (start env st).1.httpsServer
          = some ⟨host, .num 80, decide (env.listen .https (.num 80) host = .listening)⟩) := by
  have h1 := split_host_only host hh
  have h2 := split_host_colon host hh
  have h4 : httpsAddress (.text (host ++ ":")) = some (host, .num 80) := by
    simp [httpsAddress, h2, portOr]
  refine ⟨?_, ?_, ?_, h4, ?_, ?_⟩
  · simp [httpAddress, h1, portOr]
  · simp [httpAddress, h2, portOr]
  · simp [httpsAddress, h1, portOr]
  rotate_left
  · intro env st cfg https key cert ca hcfg hhttps hl hfirst hkey hcert hca hsec
    have ht : https.listen.truthy = true := by
      have h := truthy_host_port host ""
      rw [String.append_empty] at h
      rw [hl]
      exact h
    exact start_httpsServer env st cfg https host (.num 80) key cert ca hcfg hfirst hhttps ht
      (hl ▸ h4) hkey hcert hca hsec
  · intro l h
    cases l with
    | flag b =>
      cases b
      · simp [httpsAddress]
      · simp [httpsAddress, eq_comm]
    | text s =>
      simp only [httpsAddress, Option.some.injEq, Prod.mk.injEq, reduceCtorEq, false_and,
        iff_false, not_and]
      intro _
      unfold portOr
      split
      · split <;> simp
      · simp
    | absent => simp [httpsAddress]

/-- Witness for C9: the host `localhost`, with and without a trailing
colon. -/
theorem omitted_port_is_80_witness :
    httpsAddress (.text "localhost") = some ("localhost", .num 80)
    ∧ httpsAddress (.text "localhost:") = some ("localhost", .num 80)
    ∧ (start Env.allOk (setup (some tlsConfig) [.ready] State.init).1).1.httpsServer
        = some ⟨"localhost", .num 80, true⟩ :=
  ⟨(omitted_port_is_80 "localhost" (by decide)).2.2.1,
   (omitted_port_is_80 "localhost" (by decide)).2.2.2.1,
   (omitted_port_is_80 "localhost" (by decide)).2.2.2.2.2
      Env.allOk (setup (some tlsConfig) [.ready] State.init).1 tlsConfig
      { listen := .text "localhost:", keyPath := some "key.pem",
        certPath := some "cert.pem", caPath := some "ca.pem" }
      "key.pem" "cert.pem" "ca.pem" (by decide) rfl rfl (by decide) rfl rfl rfl rfl⟩

/-- C10, as stated, fails: on a string with two colons the port chosen is
the text between the first and the second colon, not all the text after the
first colon. -/
theorem first_colon_split_counterexample :
    httpAddress (.text "localhost:80:90") = some ("localhost", .text "80")
    ∧ httpsAddress (.text "localhost:80:90") = some ("localhost", .text "80")
    ∧ firstColonAddress "localhost:80:90" 80 = ("localhost", .text "80:90")
    ∧ httpAddress (.text "localhost:80:90") ≠ some (firstColonAddress "localhost:80:90" 80) := by
  decide

/-- C10, amended: for every listen string, in both blocks, the host is the
text before the first colon and the port is the text between the first colon
and the next colon (or the end of the string when there is no second colon),
the default 80 when that text is empty or there is no colon. -/
theorem address_between_colons (s : String) :
    httpAddress (.text s) = some (betweenColonsAddress s 80)
    ∧ httpsAddress (.text s) = some (betweenColonsAddress s 80) := by
  obtain ⟨h1, h2⟩ := split_between_colons s
  constructor
  · simp only [httpAddress, h1, h2]
    rfl
  · simp only [httpsAddress, h1, h2]
    rfl

/-! ## Claims about CORS -/

theorem indexOfFrom_nonneg_iff (xs : List String) (x : Option String) (i : Nat) :
    indexOfFrom xs x i ≥ 0 ↔ ∃ y ∈ xs, some y = x := by
  induction xs generalizing i with
  | nil => simp [indexOfFrom]
  | cons y ys ih =>
    unfold indexOfFrom
    by_cases hy : some y = x
    · simp [hy]
    · simp only [hy, if_false, ih, List.mem_cons]
      constructor
      · rintro ⟨z, hz, hzx⟩
        exact ⟨z, Or.inr hz, hzx⟩
      · rintro ⟨z, hz | hz, hzx⟩
        · exact absurd (hz ▸ hzx) hy
        · exact ⟨z, hz, hzx⟩

/-- C5: when `cors.allowOrigins` is a list `L`, `setup` attaches the CORS
middleware with the allow-list closure as its `origin` option, and that
closure returns, for every request, the request's own `Origin` value when
it is an element of `L` and nothing (`undefined`) when it is not, or when
the request has no `Origin` header; it never returns a value other than the
request's own.  With `L = ["https://a.example"]` the origin
`https://a.example` is returned and `https://b.example` gives nothing. -/
theorem cors_origin_decision (cfg : Config) (ck : Cookie) (c : Cors) (L : List String)
    (st : State) (hck : cfg.cookie = some ck) (hc : cfg.cors = some c)
    (hL : c.allowOrigins = .list L) :
    (corsOptions c).origin = .decision L
    ∧ Mw.cors (corsOptions c) ∈ (setupSync (some cfg) st).1.middleware
    ∧ (∀ o : String, originDecision L (some o) = if o ∈ L then some o else none)
    ∧ originDecision L none = none
    ∧ (∀ (req : Option String) (res : String),
        originDecision L req = some res → req = some res)
    ∧ originDecision ["https://a.example"] (some "https://a.example")
        = some "https://a.example"
    ∧ originDecision ["https://a.example"] (some "https://b.example") = none := by
  refine ⟨by simp [corsOptions, hL, corsOrigin], ?_, ?_, ?_, ?_, by decide, by decide⟩
  · cases hs : cfg.session with
    | none => simp [setupSync, hck, hc, hs, State.use]
    | some s =>
      cases hr : s.redis <;> simp [setupSync, hck, hc, hs, hr, State.use]
  · intro o
    unfold originDecision indexOf
    by_cases ho : o ∈ L
    · have : indexOfFrom L (some o) 0 ≥ 0 :=
        (indexOfFrom_nonneg_iff L (some o) 0).2 ⟨o, ho, rfl⟩
      simp [ho, this]
    · have : ¬ indexOfFrom L (some o) 0 ≥ 0 := by
        rw [indexOfFrom_nonneg_iff]
        rintro ⟨y, hy, hyo⟩
        exact ho (Option.some.inj hyo ▸ hy)
      simp [ho, this]
  · unfold originDecision
    split <;> rfl
  · intro req res h
    unfold originDecision at h
    split at h
    · exact h
    · cases h

/-- Witness for C5: the allow-list `["https://a.example"]` in the
end-to-end configuration. -/
theorem cors_origin_decision_witness :
    Mw.cors (corsOptions { allowOrigins := .list ["https://a.example"] })
        ∈ (setupSync (some { demoConfig with
            cors := some { allowOrigins := .list ["https://a.example"] } })
            State.init).1.middleware
    ∧ originDecision ["https://a.example"] (some "https://a.example")
        = some "https://a.example"
    ∧ originDecision ["https://a.example"] (some "https://b.example") = none
    ∧ some "https://a.example" = some "https://a.example" :=
  have h := cors_origin_decision
    { demoConfig with cors := some { allowOrigins := .list ["https://a.example"] } }
    { keys := some ["k"] } { allowOrigins := .list ["https://a.example"] }
    ["https://a.example"] State.init rfl rfl rfl
  ⟨h.2.1, h.2.2.2.2.2.1, h.2.2.2.2.2.2,
    h.2.2.2.2.1 (some "https://a.example") "https://a.example" (by decide)⟩

end Webserver
